import Mathlib

/-!
Verification of the match lifecycle and target-simulation loop of the
FPS-shooter repository (main.js, manager.js, Target.js, levels/*.js).

The JavaScript float arithmetic of Three.js vectors is idealized over ℝ;
`Math.random()` draws are passed in explicitly as oracle values in `[0, 1)`;
`setInterval`/`setTimeout` callbacks become explicit step functions on the
game state, with an `…IntervalActive` flag standing for a registered
interval (clearing the interval sets the flag to false, and a cleared
interval's callback is the identity).  DOM/UI and audio calls are
presentation-only and are not part of the state; the scheduled
`alert(...)` game-over messages are modelled by the data they display
(final score and level name).
-/

namespace GunGame

/-- A Three.js `Vector3`, idealized over the reals. -/
structure Vec3 where
  x : ℝ
  y : ℝ
  z : ℝ

noncomputable section

/-- Componentwise vector addition (`Vector3.add`). -/
def Vec3.add (a b : Vec3) : Vec3 := ⟨a.x + b.x, a.y + b.y, a.z + b.z⟩

/-- Componentwise vector subtraction (`Vector3.subVectors`). -/
def Vec3.sub (a b : Vec3) : Vec3 := ⟨a.x - b.x, a.y - b.y, a.z - b.z⟩

/-- Scalar multiple (`Vector3.multiplyScalar`). -/
def Vec3.smul (k : ℝ) (v : Vec3) : Vec3 := ⟨k * v.x, k * v.y, k * v.z⟩

/-- Euclidean length (`Vector3.length`). -/
def Vec3.len (v : Vec3) : ℝ := Real.sqrt (v.x ^ 2 + v.y ^ 2 + v.z ^ 2)

/-- Distance between two points (`Vector3.distanceTo`). -/
def Vec3.distanceTo (a b : Vec3) : ℝ := (b.sub a).len

/-- Unit vector in the direction of `v` (`Vector3.normalize`).  Three.js
divides by `length || 1`; over ℝ a vector of length 0 is the zero vector,
so dividing by `1 / 0 = 0` returns the same zero vector and the two
readings agree. -/
def Vec3.normalize (v : Vec3) : Vec3 := Vec3.smul (1 / v.len) v

/-- One difficulty preset (`levels/beginner.js` etc.): plain data. -/
structure LevelConfig where
  name : String
  targetCount : ℕ
  targetSpeed : ℝ
  targetSize : ℝ
  gameTime : ℕ
  spawnRange : Vec3
  color : ℕ
  description : String
  collisionDistance : ℝ
  icon : String

/-- The `beginner` preset of `levels/beginner.js`. -/
def beginner : LevelConfig :=
  { name := "Beginner", targetCount := 5, targetSpeed := 0.05, targetSize := 1.8,
    gameTime := 90, spawnRange := ⟨15, 5, 40⟩, color := 0x00ff00,
    description := "Easy targets, more time", collisionDistance := 3.0, icon := "g" }

/-- The `intermediate` preset of `levels/intermediate.js`. -/
def intermediate : LevelConfig :=
  { name := "Intermediate", targetCount := 15, targetSpeed := 0.10, targetSize := 3.2,
    gameTime := 60, spawnRange := ⟨30, 10, 80⟩, color := 0xffa500,
    description := "Moderate challenge", collisionDistance := 3.0, icon := "o" }

/-- The `professional` preset of `levels/professional.js`. -/
def professional : LevelConfig :=
  { name := "Professional", targetCount := 25, targetSpeed := 0.15, targetSize := 2.0,
    gameTime := 30, spawnRange := ⟨40, 15, 100⟩, color := 0xff0000,
    description := "Hardcore mode", collisionDistance := 3.0, icon := "r" }

/-- One call's worth of `Math.random()` draws, passed in as an oracle. -/
structure Rand3 where
  r1 : ℝ
  r2 : ℝ
  r3 : ℝ

/-- Each draw of `Math.random()` lies in `[0, 1)`. -/
def validRand (r : Rand3) : Prop :=
  0 ≤ r.r1 ∧ r.r1 < 1 ∧ 0 ≤ r.r2 ∧ r.r2 < 1 ∧ 0 ≤ r.r3 ∧ r.r3 < 1

/-- The state of one `Target` (Target.js): its mesh position and rotation,
its material color, its current speed, and the `levelConfig` captured at
construction time (`this.levelConfig`, used by `checkCollision`). -/
structure TargetState where
  position : Vec3
  rotX : ℝ
  rotY : ℝ
  color : ℕ
  speed : ℝ
  levelConfig : LevelConfig

/-- The position `Target.respawn` samples from the draws `r`:
`((random - 0.5) * range.x * 2, random * range.y + 1, -random * range.z - 5)`. -/
def spawnPoint (cfg : LevelConfig) (r : Rand3) : Vec3 :=
  ⟨(r.r1 - 0.5) * cfg.spawnRange.x * 2,
   r.r2 * cfg.spawnRange.y + 1,
   -(r.r3 * cfg.spawnRange.z) - 5⟩

/-- `Target.respawn(levelConfig)`: re-position inside the spawn volume and
re-copy the speed.  The stored `this.levelConfig` and the material color
are not touched. -/
def Target.respawn (cfg : LevelConfig) (r : Rand3) (t : TargetState) : TargetState :=
  { t with position := spawnPoint cfg r, speed := cfg.targetSpeed }

/-- The position after the movement step of `Target.update`: add
`speed` times the unit direction toward the camera. -/
def Target.movedPosition (cameraPosition : Vec3) (t : TargetState) : Vec3 :=
  t.position.add (Vec3.smul t.speed (Vec3.normalize (cameraPosition.sub t.position)))

/-- `Target.update(cameraPosition, levelConfig)`: move toward the camera,
rotate for visual effect, then respawn if the new position is within
distance 1.0 of the camera or has `z > 0`. -/
def Target.update (cameraPosition : Vec3) (cfg : LevelConfig) (r : Rand3)
    (t : TargetState) : TargetState :=
  let moved : TargetState :=
    { t with position := Target.movedPosition cameraPosition t,
             rotX := t.rotX + 0.01, rotY := t.rotY + 0.01 }
  if moved.position.distanceTo cameraPosition < 1 ∨ moved.position.z > 0 then
    Target.respawn cfg r moved
  else
    moved

/-- `Target.checkCollision(cameraPosition)`: distance below the collision
threshold of the config captured at construction time. -/
def Target.checkCollision (cameraPosition : Vec3) (t : TargetState) : Bool :=
  decide (t.position.distanceTo cameraPosition < t.levelConfig.collisionDistance)

/-- The spawn volume of §3 of the spec, as `Target.respawn` realizes it:
`x ∈ [-range.x, range.x]`, `y ∈ [1, range.y + 1]`, `z ∈ [-range.z - 5, -5]`. -/
def inSpawnBox (cfg : LevelConfig) (p : Vec3) : Prop :=
  -cfg.spawnRange.x ≤ p.x ∧ p.x ≤ cfg.spawnRange.x ∧
  1 ≤ p.y ∧ p.y ≤ cfg.spawnRange.y + 1 ∧
  -cfg.spawnRange.z - 5 ≤ p.z ∧ p.z ≤ -5

/-- A concrete target, as `new Target(scene, beginner)` leaves it after its
initial `respawn` with draws `(1/2, 1/2, 1/2)` would. -/
def sampleTarget : TargetState :=
  { position := ⟨0, 3.5, -25⟩, rotX := 0, rotY := 0,
    color := 0x00ff00, speed := 0.05, levelConfig := beginner }

end

/-- The length of a scalar multiple is the absolute scalar times the length. -/
theorem Vec3.len_smul (k : ℝ) (v : Vec3) : (Vec3.smul k v).len = |k| * v.len := by
  unfold Vec3.smul Vec3.len
  have h : (k * v.x) ^ 2 + (k * v.y) ^ 2 + (k * v.z) ^ 2
      = k ^ 2 * (v.x ^ 2 + v.y ^ 2 + v.z ^ 2) := by ring
  rw [h, Real.sqrt_mul (sq_nonneg k), Real.sqrt_sq_eq_abs]

/-- A length is nonnegative. -/
theorem Vec3.len_nonneg (v : Vec3) : 0 ≤ v.len := Real.sqrt_nonneg _

/-- The vector from the moved position to the camera is the original offset
scaled by `(d - s) / d`, where `d` is the original distance and `s` the speed. -/
theorem movedPosition_sub (c : Vec3) (t : TargetState)
    (hd : t.position.distanceTo c ≠ 0) :
    c.sub (Target.movedPosition c t)
      = Vec3.smul ((t.position.distanceTo c - t.speed) / t.position.distanceTo c)
          (c.sub t.position) := by
  have hlen : (c.sub t.position).len = t.position.distanceTo c := rfl
  unfold Target.movedPosition Vec3.normalize
  unfold Vec3.smul Vec3.add Vec3.sub at *
  simp only [Vec3.mk.injEq] at *
  rw [hlen]
  refine ⟨?_, ?_, ?_⟩ <;> field_simp <;> ring

/-- Pure-pursuit geometry: after one movement step of `Target.update`, the
distance to a stationary camera is `|d - s|` for prior distance `d > 0` and
speed `s`. -/
theorem distanceTo_movedPosition (c : Vec3) (t : TargetState)
    (hd : 0 < t.position.distanceTo c) :
    (Target.movedPosition c t).distanceTo c = |t.position.distanceTo c - t.speed| := by
  have hne : t.position.distanceTo c ≠ 0 := ne_of_gt hd
  have hlen : (c.sub t.position).len = t.position.distanceTo c := rfl
  have h1 : (Target.movedPosition c t).distanceTo c
      = (c.sub (Target.movedPosition c t)).len := rfl
  rw [h1, movedPosition_sub c t hne, Vec3.len_smul, hlen, abs_div,
    abs_of_pos hd, div_mul_cancel₀ _ hne]

/-- The spawn sample lands in the spawn volume for valid draws. -/
theorem spawnPoint_in_box (cfg : LevelConfig) (r : Rand3) (hr : validRand r)
    (hx : 0 < cfg.spawnRange.x) (hy : 0 < cfg.spawnRange.y) (hz : 0 < cfg.spawnRange.z) :
    inSpawnBox cfg (spawnPoint cfg r) := by
  obtain ⟨h1, h2, h3, h4, h5, h6⟩ := hr
  unfold inSpawnBox spawnPoint
  refine ⟨?_, ?_, ?_, ?_, ?_, ?_⟩ <;> simp only
  · nlinarith
  · nlinarith
  · nlinarith
  · nlinarith
  · nlinarith
  · nlinarith

/-- C3: for every `LevelConfig` with positive spawn-volume fields and valid
`Math.random()` draws, `Target.respawn` produces a position with
`x ∈ [-range.x, range.x]`, `y ≥ 1` (the ground clearance), and
`z ∈ [-range.z - 5, -5]`, hence strictly negative `z`: the target never
spawns behind the player's forward plane. -/
theorem respawn_in_spawn_box (cfg : LevelConfig) (r : Rand3) (t : TargetState)
    (hr : validRand r) (hx : 0 < cfg.spawnRange.x) (hy : 0 < cfg.spawnRange.y)
    (hz : 0 < cfg.spawnRange.z) :
    inSpawnBox cfg (Target.respawn cfg r t).position ∧
      (Target.respawn cfg r t).position.z < 0 := by
  have hbox : inSpawnBox cfg (spawnPoint cfg r) := spawnPoint_in_box cfg r hr hx hy hz
  have hpos : (Target.respawn cfg r t).position = spawnPoint cfg r := rfl
  refine ⟨hpos ▸ hbox, ?_⟩
  rw [hpos]
  have h5 := hbox.2.2.2.2.2
  linarith

/-- Unfolding of `Target.update` into its moved state and respawn test. -/
theorem Target.update_eq (c : Vec3) (cfg : LevelConfig) (r : Rand3) (t : TargetState) :
    Target.update c cfg r t
      = if (Target.movedPosition c t).distanceTo c < 1 ∨ (Target.movedPosition c t).z > 0
        then Target.respawn cfg r
          { t with position := Target.movedPosition c t,
                   rotX := t.rotX + 0.01, rotY := t.rotY + 0.01 }
        else
          { t with position := Target.movedPosition c t,
                   rotX := t.rotX + 0.01, rotY := t.rotY + 0.01 } := rfl

/-- Length of a vector on the z-axis. -/
theorem len_zaxis (a : ℝ) : Vec3.len ⟨0, 0, a⟩ = |a| := by
  unfold Vec3.len
  rw [show (0:ℝ) ^ 2 + 0 ^ 2 + a ^ 2 = a ^ 2 by ring, Real.sqrt_sq_eq_abs]

/-- Distance between two points on the z-axis. -/
theorem distanceTo_zaxis (a b : ℝ) :
    Vec3.distanceTo ⟨0, 0, a⟩ ⟨0, 0, b⟩ = |b - a| := by
  have h : Vec3.distanceTo ⟨0, 0, a⟩ ⟨0, 0, b⟩ = Vec3.len ⟨0 - 0, 0 - 0, b - a⟩ := rfl
  rw [h, show (0:ℝ) - 0 = 0 by ring, len_zaxis]

/-- C2 (amended): while the per-tick speed stays below the current distance
to a stationary camera, one movement step of `Target.update` shrinks the
distance by exactly the speed (hence strictly); when the respawn condition
then fires the new position is back inside the spawn volume, and otherwise
the update keeps the moved position. -/
theorem target_approach_amended (c : Vec3) (cfg : LevelConfig) (r : Rand3)
    (t : TargetState) (hs : 0 < t.speed)
    (hlt : t.speed < t.position.distanceTo c) (hr : validRand r)
    (hx : 0 < cfg.spawnRange.x) (hy : 0 < cfg.spawnRange.y)
    (hz : 0 < cfg.spawnRange.z) :
    (Target.movedPosition c t).distanceTo c = t.position.distanceTo c - t.speed ∧
    (Target.movedPosition c t).distanceTo c < t.position.distanceTo c ∧
    (¬ ((Target.movedPosition c t).distanceTo c < 1 ∨ (Target.movedPosition c t).z > 0) →
      (Target.update c cfg r t).position = Target.movedPosition c t) ∧
    (((Target.movedPosition c t).distanceTo c < 1 ∨ (Target.movedPosition c t).z > 0) →
      inSpawnBox cfg (Target.update c cfg r t).position) := by
  have hd : 0 < t.position.distanceTo c := hs.trans hlt
  have hmove : (Target.movedPosition c t).distanceTo c
      = t.position.distanceTo c - t.speed := by
    rw [distanceTo_movedPosition c t hd, abs_of_pos (by linarith)]
  refine ⟨hmove, by rw [hmove]; linarith, ?_, ?_⟩
  · intro hcond
    rw [Target.update_eq, if_neg hcond]
  · intro hcond
    rw [Target.update_eq, if_pos hcond]
    exact spawnPoint_in_box cfg r hr hx hy hz

/-- A concrete target on the z-axis, ten units in front of the origin. -/
def axisTarget : TargetState :=
  { position := ⟨0, 0, -10⟩, rotX := 0, rotY := 0,
    color := 0x00ff00, speed := 0.05, levelConfig := beginner }

/-- C2 witness: the amended distance decrease instantiated at a camera at
the origin and a target ten units away moving at beginner speed. -/
theorem target_approach_amended_inst :
    0 < axisTarget.speed ∧
    axisTarget.speed < Vec3.distanceTo axisTarget.position ⟨0, 0, 0⟩ ∧
    (Target.movedPosition ⟨0, 0, 0⟩ axisTarget).distanceTo ⟨0, 0, 0⟩
      < Vec3.distanceTo axisTarget.position ⟨0, 0, 0⟩ := by
  have hdist : Vec3.distanceTo axisTarget.position ⟨0, 0, 0⟩ = 10 := by
    have h : Vec3.distanceTo axisTarget.position ⟨0, 0, 0⟩
        = Vec3.distanceTo ⟨0, 0, -10⟩ ⟨0, 0, 0⟩ := rfl
    rw [h, distanceTo_zaxis]
    norm_num
  have hs : 0 < axisTarget.speed := by norm_num [axisTarget]
  have hlt : axisTarget.speed < Vec3.distanceTo axisTarget.position ⟨0, 0, 0⟩ := by
    rw [hdist]; norm_num [axisTarget]
  exact ⟨hs, hlt,
    (target_approach_amended ⟨0, 0, 0⟩ beginner ⟨1/2, 1/2, 1/2⟩ axisTarget hs hlt
      (by norm_num [validRand]) (by norm_num [beginner]) (by norm_num [beginner])
      (by norm_num [beginner])).2.1⟩

/-- A target set up to overshoot: it sits five units in front of the origin
while the camera is twenty units behind it, and its speed is 40. -/
def cexTarget : TargetState :=
  { position := ⟨0, 0, -5⟩, rotX := 0, rotY := 0,
    color := 0x00ff00, speed := 40, levelConfig := beginner }

/-- C2 counterexample: with positive speed 40 and a stationary camera at
`(0, 0, -20)`, one `Target.update` tick moves the target from distance 15
to distance 25 — the distance strictly increases — while neither respawn
condition fires (the final position is the moved one, with `z = -45 ≤ 0`
and distance `25 ≥ 1`), refuting the claim as stated. -/
theorem target_distance_can_increase :
    0 < cexTarget.speed ∧
    Vec3.distanceTo cexTarget.position ⟨0, 0, -20⟩ = 15 ∧
    (Target.update ⟨0, 0, -20⟩ beginner ⟨1/2, 1/2, 1/2⟩ cexTarget).position
      = Target.movedPosition ⟨0, 0, -20⟩ cexTarget ∧
    (Target.update ⟨0, 0, -20⟩ beginner ⟨1/2, 1/2, 1/2⟩ cexTarget).position
      = ⟨0, 0, -45⟩ ∧
    Vec3.distanceTo
      (Target.update ⟨0, 0, -20⟩ beginner ⟨1/2, 1/2, 1/2⟩ cexTarget).position
      ⟨0, 0, -20⟩ = 25 := by
  have hd : Vec3.distanceTo cexTarget.position ⟨0, 0, -20⟩ = 15 := by
    have h : Vec3.distanceTo cexTarget.position ⟨0, 0, -20⟩
        = Vec3.distanceTo ⟨0, 0, -5⟩ ⟨0, 0, -20⟩ := rfl
    rw [h, distanceTo_zaxis]
    norm_num
  have hlen : Vec3.len (Vec3.sub ⟨0, 0, -20⟩ cexTarget.position) = 15 := by
    have h : Vec3.sub ⟨0, 0, -20⟩ cexTarget.position = ⟨0, 0, -15⟩ := by
      show Vec3.sub ⟨0, 0, -20⟩ ⟨0, 0, -5⟩ = _
      unfold Vec3.sub
      norm_num
    rw [h, len_zaxis]
    norm_num
  have hmoved : Target.movedPosition ⟨0, 0, -20⟩ cexTarget = ⟨0, 0, -45⟩ := by
    unfold Target.movedPosition Vec3.normalize
    rw [hlen]
    show Vec3.add ⟨0, 0, -5⟩ (Vec3.smul 40 (Vec3.smul (1 / 15) ⟨0 - 0, 0 - 0, -20 - -5⟩)) = _
    unfold Vec3.add Vec3.smul
    norm_num
  have hdist2 : Vec3.distanceTo (Target.movedPosition ⟨0, 0, -20⟩ cexTarget)
      ⟨0, 0, -20⟩ = 25 := by
    rw [hmoved, distanceTo_zaxis]
    norm_num
  have hfinal : (Target.update ⟨0, 0, -20⟩ beginner ⟨1/2, 1/2, 1/2⟩ cexTarget).position
      = Target.movedPosition ⟨0, 0, -20⟩ cexTarget := by
    rw [Target.update_eq, if_neg]
    rw [hdist2, hmoved]
    push_neg
    norm_num
  refine ⟨by norm_num [cexTarget], hd, hfinal, ?_, ?_⟩
  · rw [hfinal, hmoved]
  · rw [hfinal, hdist2]

/-- C3 witness: the bound instantiated for the beginner preset, the draws
`(1/2, 1/2, 1/2)` and a concrete target. -/
theorem respawn_in_spawn_box_inst :
    inSpawnBox beginner (Target.respawn beginner ⟨1/2, 1/2, 1/2⟩ sampleTarget).position ∧
      (Target.respawn beginner ⟨1/2, 1/2, 1/2⟩ sampleTarget).position.z < 0 :=
  respawn_in_spawn_box beginner ⟨1/2, 1/2, 1/2⟩ sampleTarget
    (by norm_num [validRand])
    (by norm_num [beginner]) (by norm_num [beginner]) (by norm_num [beginner])

/-- The data a scheduled `alert` game-over message displays: the final
score and the level name. -/
structure Summary where
  finalScore : ℕ
  levelName : String

/-- The mutable state of main.js: the `gameState` object, the `targets`
array, the camera position, the pointer-lock state of `controls`, the two
`setInterval` registrations, the scheduled game-over alerts, and a log of
the `setTimeout` respawns the shooting listener registers (target index and
delay in milliseconds). -/
structure World where
  currentLevel : LevelConfig
  score : ℕ
  timeLeft : ℤ
  isPlaying : Bool
  isCountdown : Bool
  countdown : ℤ
  targets : List TargetState
  cameraPos : Vec3
  controlsLocked : Bool
  countdownIntervalActive : Bool
  timerIntervalActive : Bool
  alerts : List Summary
  respawnSchedule : List (ℕ × ℕ)

noncomputable section

/-- Apply `f` to the list entry at index `i`, if it exists: the shape of an
in-place mutation of `targets[i]`. -/
def setAt (l : List TargetState) (i : ℕ) (f : TargetState → TargetState) :
    List TargetState :=
  match l[i]? with
  | none => l
  | some t => l.set i (f t)

/-- `new Target(scene, levelConfig)`: build the mesh with the config's
color, store the config, and `respawn`. -/
def Target.create (cfg : LevelConfig) (r : Rand3) : TargetState :=
  Target.respawn cfg r
    { position := ⟨0, 0, 0⟩, rotX := 0, rotY := 0,
      color := cfg.color, speed := 0, levelConfig := cfg }

/-- `createTargets(levelConfig)`: drop the old target set and build
`targetCount` fresh targets. -/
def createTargets (cfg : LevelConfig) (rands : ℕ → Rand3) : List TargetState :=
  (List.range cfg.targetCount).map (fun i => Target.create cfg (rands i))

/-- `endGame()`: stop play, unlock the pointer, and schedule the game-over
alert showing the final score and level name. -/
def endGame (w : World) : World :=
  { w with isPlaying := false, controlsLocked := false,
           alerts := w.alerts ++ [⟨w.score, w.currentLevel.name⟩] }

/-- `updateTimer()` — the once-per-second match-timer callback: return
early unless playing, otherwise decrement `timeLeft` and end the game once
it is `≤ 0`.  (The decrement is inlined into both branches of the test
that follows it.) -/
def updateTimer (w : World) : World :=
  if !w.isPlaying then w
  else if w.timeLeft - 1 ≤ 0 then endGame { w with timeLeft := w.timeLeft - 1 }
  else { w with timeLeft := w.timeLeft - 1 }

/-- `startCountdown(level)`: reset score and clock, enter the countdown at
5, create the fresh target set, and register the countdown interval. -/
def startCountdown (level : LevelConfig) (rands : ℕ → Rand3) (w : World) : World :=
  { w with currentLevel := level, score := 0, timeLeft := (level.gameTime : ℤ),
           isCountdown := true, countdown := 5,
           targets := createTargets level rands,
           countdownIntervalActive := true }

/-- The countdown interval's callback: decrement, and once the value is
`≤ 0` clear the interval and start play.  A cleared interval no longer
fires, so the callback is the identity when the registration flag is off.
(`startGame` is dead code: the callback sets `isPlaying` itself and never
clears `isCountdown`.) -/
def countdownTick (w : World) : World :=
  if !w.countdownIntervalActive then w
  else if w.countdown - 1 ≤ 0 then
    { w with countdown := w.countdown - 1,
             isPlaying := true, countdownIntervalActive := false }
  else { w with countdown := w.countdown - 1 }

/-- The window `click` shooting listener.  `hits` is the index list the
external raycaster returns, nearest intersection first.  Ignore the event
unless playing with the pointer locked; on a hit, flash the nearest hit
target white, increment the score, and register a 200 ms `setTimeout`
respawn of that target.  (The shot sound touches only audio state.) -/
def shoot (hits : List ℕ) (w : World) : World :=
  if !w.isPlaying || !w.controlsLocked then w
  else
    match hits with
    | [] => w
    | i :: _ =>
      { w with targets := setAt w.targets i (fun t => { t with color := 0xffffff }),
               score := w.score + 1,
               respawnSchedule := w.respawnSchedule ++ [(i, 200)] }

/-- The body of the 200 ms `setTimeout` the shooting listener registers:
restore the hit target's color to the current level's and respawn it (a
no-op if the target is gone from the array). -/
def respawnScheduled (i : ℕ) (r : Rand3) (w : World) : World :=
  { w with targets :=
      setAt w.targets i fun t =>
        Target.respawn w.currentLevel r { t with color := w.currentLevel.color } }

/-- `handleCollision(target)`: stop play, unlock the pointer, schedule the
game-over alert with the current score and level name, and color the
hitting target red. -/
def handleCollision (i : ℕ) (w : World) : World :=
  { w with isPlaying := false, controlsLocked := false,
           alerts := w.alerts ++ [⟨w.score, w.currentLevel.name⟩],
           targets := setAt w.targets i (fun t => { t with color := 0xff0000 }) }

/-- One iteration of the `targets.forEach` body in `animate()`: update the
target at index `i` in place, then run `handleCollision` on it if it now
collides.  The `return` in the source exits only this per-target callback. -/
def frameTarget (rands : ℕ → Rand3) (i : ℕ) (w : World) : World :=
  match w.targets[i]? with
  | none => w
  | some t =>
    if Target.checkCollision w.cameraPos
        (Target.update w.cameraPos w.currentLevel (rands i) t) then
      handleCollision i
        { w with targets :=
            w.targets.set i (Target.update w.cameraPos w.currentLevel (rands i) t) }
    else
      { w with targets :=
          w.targets.set i (Target.update w.cameraPos w.currentLevel (rands i) t) }

/-- The `targets.forEach` loop of `animate()`: run the per-target body over
the index list in order. -/
def frameLoop (rands : ℕ → Rand3) (l : List ℕ) (w : World) : World :=
  l.foldl (fun acc i => frameTarget rands i acc) w

/-- One `animate()` frame: when playing, run the `forEach` body over every
target index in order — `isPlaying` is tested once, before the loop. -/
def runFrame (rands : ℕ → Rand3) (w : World) : World :=
  if !w.isPlaying then w
  else frameLoop rands (List.range w.targets.length) w

/-- The pointer `unlock` listener: the pointer is now unlocked, and if a
match was being played it is abandoned (no alert, no summary). -/
def pointerUnlock (w : World) : World :=
  if w.isPlaying then { w with controlsLocked := false, isPlaying := false }
  else { w with controlsLocked := false }

/-- The initial `gameState` of main.js, with the match-timer interval
registered at startup (`setInterval(updateTimer, 1000)` runs at load). -/
def world0 : World :=
  { currentLevel := beginner, score := 0, timeLeft := 0, isPlaying := false,
    isCountdown := false, countdown := 3, targets := [], cameraPos := ⟨0, 0, 0⟩,
    controlsLocked := false, countdownIntervalActive := false,
    timerIntervalActive := true, alerts := [], respawnSchedule := [] }

/-- A world in mid-match: playing, pointer locked, two seconds on the
clock, seven hits scored, one target well in front of the camera. -/
def activeWorld : World :=
  { world0 with isPlaying := true, controlsLocked := true,
                timeLeft := 2, score := 7, targets := [axisTarget] }

end

/-- A timer tick is the identity when the match is not playing. -/
theorem updateTimer_not_playing (w : World) (h : w.isPlaying = false) :
    updateTimer w = w := by
  simp [updateTimer, h]

/-- A timer tick with more than one second left only decrements the clock. -/
theorem updateTimer_dec (w : World) (h : w.isPlaying = true) (h2 : 1 < w.timeLeft) :
    updateTimer w = { w with timeLeft := w.timeLeft - 1 } := by
  rw [updateTimer, if_neg (by simp [h]), if_neg (by omega)]

/-- A timer tick with at most one second left ends the game. -/
theorem updateTimer_last (w : World) (h : w.isPlaying = true) (h2 : w.timeLeft ≤ 1) :
    updateTimer w = endGame { w with timeLeft := w.timeLeft - 1 } := by
  rw [updateTimer, if_neg (by simp [h]), if_pos (by omega)]

/-- While the clock has not run out, `k` timer ticks only decrement it `k`
times. -/
theorem updateTimer_iterate (w : World) (T : ℕ) (h1 : w.isPlaying = true)
    (h2 : w.timeLeft = (T : ℤ)) :
    ∀ k : ℕ, k < T → updateTimer^[k] w = { w with timeLeft := (T : ℤ) - k } := by
  intro k
  induction k with
  | zero =>
    intro _
    have he : (T : ℤ) - (0 : ℕ) = w.timeLeft := by rw [h2]; simp
    rw [Function.iterate_zero_apply, he]
  | succ k ih =>
    intro hk
    have hkT : k < T := by omega
    rw [Function.iterate_succ_apply', ih hkT]
    have hstep := updateTimer_dec { w with timeLeft := (T : ℤ) - (k : ℕ) }
      (by exact h1) (by show (1 : ℤ) < (T : ℤ) - (k : ℕ); omega)
    rw [hstep]
    have he : (T : ℤ) - (k : ℕ) - 1 = (T : ℤ) - ((k + 1 : ℕ) : ℤ) := by push_cast; ring
    simp only [he]

/-- After exactly `T` ticks from `T` seconds the game has ended, once. -/
theorem updateTimer_at_end (w : World) (T : ℕ) (h1 : w.isPlaying = true)
    (h2 : w.timeLeft = (T : ℤ)) (hT : 1 ≤ T) :
    updateTimer^[T] w = endGame { w with timeLeft := 0 } := by
  obtain ⟨S, rfl⟩ : ∃ S, T = S + 1 := ⟨T - 1, by omega⟩
  rw [Function.iterate_succ_apply', updateTimer_iterate w (S + 1) h1 h2 S (by omega)]
  have hstep := updateTimer_last { w with timeLeft := ((S + 1 : ℕ) : ℤ) - (S : ℕ) }
    (by exact h1)
    (by show ((S + 1 : ℕ) : ℤ) - (S : ℕ) ≤ 1; push_cast; omega)
  rw [hstep]
  have he : ((S + 1 : ℕ) : ℤ) - (S : ℕ) - 1 = 0 := by push_cast; ring
  simp only [he]

/-- C1: while Active, each once-per-second timer tick decreases `timeLeft`
by exactly 1, the clock stays nonnegative, reaching 0 ends the game with
exactly one scheduled game-over summary, and every further tick is the
identity: the Ended transition fires exactly once per match. -/
theorem timer_decrements_and_ends_once (w : World) (T : ℕ)
    (h1 : w.isPlaying = true) (h2 : w.timeLeft = (T : ℤ)) (hT : 1 ≤ T) :
    (∀ k : ℕ, k ≤ T →
      (updateTimer^[k] w).timeLeft = (T : ℤ) - k ∧ 0 ≤ (updateTimer^[k] w).timeLeft) ∧
    (∀ k : ℕ, k < T →
      (updateTimer^[k] w).isPlaying = true ∧ (updateTimer^[k] w).alerts = w.alerts) ∧
    (updateTimer^[T] w).isPlaying = false ∧
    (updateTimer^[T] w).timeLeft = 0 ∧
    (updateTimer^[T] w).alerts = w.alerts ++ [⟨w.score, w.currentLevel.name⟩] ∧
    (∀ m : ℕ, T ≤ m → updateTimer^[m] w = updateTimer^[T] w) := by
  have hend := updateTimer_at_end w T h1 h2 hT
  have hfix : ∀ j : ℕ, updateTimer^[T + j] w = updateTimer^[T] w := by
    intro j
    induction j with
    | zero => rfl
    | succ j ih =>
      have : T + (j + 1) = (T + j) + 1 := by omega
      rw [this, Function.iterate_succ_apply', ih, hend, updateTimer_not_playing _ rfl]
  refine ⟨?_, ?_, ?_, ?_, ?_, ?_⟩
  · intro k hk
    rcases lt_or_eq_of_le hk with hlt | heq
    · rw [updateTimer_iterate w T h1 h2 k hlt]
      refine ⟨rfl, ?_⟩
      show (0 : ℤ) ≤ (T : ℤ) - (k : ℕ)
      omega
    · rw [heq, hend]
      refine ⟨?_, ?_⟩
      · show (0 : ℤ) = (T : ℤ) - (T : ℕ)
        omega
      · show (0 : ℤ) ≤ (0 : ℤ)
        omega
  · intro k hk
    rw [updateTimer_iterate w T h1 h2 k hk]
    exact ⟨h1, rfl⟩
  · rw [hend]; rfl
  · rw [hend]; rfl
  · rw [hend]; rfl
  · intro m hm
    have : m = T + (m - T) := by omega
    rw [this, hfix]

/-- C1 witness: the timer run instantiated on a concrete active world with
two seconds left. -/
theorem timer_decrements_and_ends_once_inst :
    activeWorld.isPlaying = true ∧ activeWorld.timeLeft = ((2 : ℕ) : ℤ) ∧
    (updateTimer^[2] activeWorld).isPlaying = false ∧
    (updateTimer^[2] activeWorld).timeLeft = 0 ∧
    (updateTimer^[2] activeWorld).alerts = activeWorld.alerts ++ [⟨7, "Beginner"⟩] :=
  have h := timer_decrements_and_ends_once activeWorld 2 rfl rfl (by norm_num)
  ⟨rfl, rfl, h.2.2.1, h.2.2.2.1, h.2.2.2.2.1⟩

/-- A countdown tick is the identity once the interval is cleared. -/
theorem countdownTick_cleared (w : World) (h : w.countdownIntervalActive = false) :
    countdownTick w = w := by
  simp [countdownTick, h]

/-- A countdown tick above 1 only decrements the value. -/
theorem countdownTick_dec (w : World) (h : w.countdownIntervalActive = true)
    (h2 : 1 < w.countdown) :
    countdownTick w = { w with countdown := w.countdown - 1 } := by
  rw [countdownTick, if_neg (by simp [h]), if_neg (by omega)]

/-- The countdown tick that reaches 0 clears the interval and starts play. -/
theorem countdownTick_last (w : World) (h : w.countdownIntervalActive = true)
    (h2 : w.countdown ≤ 1) :
    countdownTick w = { w with countdown := w.countdown - 1,
                               isPlaying := true, countdownIntervalActive := false } := by
  rw [countdownTick, if_neg (by simp [h]), if_pos (by omega)]

/-- While the countdown is still positive, `k` ticks only decrement it `k`
times. -/
theorem countdownTick_iterate (w : World) (C : ℕ)
    (h1 : w.countdownIntervalActive = true) (h2 : w.countdown = (C : ℤ)) :
    ∀ k : ℕ, k < C → countdownTick^[k] w = { w with countdown := (C : ℤ) - k } := by
  intro k
  induction k with
  | zero =>
    intro _
    have he : (C : ℤ) - (0 : ℕ) = w.countdown := by rw [h2]; simp
    rw [Function.iterate_zero_apply, he]
  | succ k ih =>
    intro hk
    rw [Function.iterate_succ_apply', ih (by omega)]
    have hstep := countdownTick_dec { w with countdown := (C : ℤ) - (k : ℕ) }
      (by exact h1) (by show (1 : ℤ) < (C : ℤ) - (k : ℕ); omega)
    rw [hstep]
    have he : (C : ℤ) - (k : ℕ) - 1 = (C : ℤ) - ((k + 1 : ℕ) : ℤ) := by push_cast; ring
    simp only [he]

/-- After exactly `C` ticks from value `C ≥ 1` the countdown sits at 0,
play has begun and the interval is cleared. -/
theorem countdownTick_at_end (w : World) (C : ℕ)
    (h1 : w.countdownIntervalActive = true) (h2 : w.countdown = (C : ℤ)) (hC : 1 ≤ C) :
    countdownTick^[C] w = { w with countdown := 0, isPlaying := true,
                                   countdownIntervalActive := false } := by
  obtain ⟨S, rfl⟩ : ∃ S, C = S + 1 := ⟨C - 1, by omega⟩
  rw [Function.iterate_succ_apply', countdownTick_iterate w (S + 1) h1 h2 S (by omega)]
  have hstep := countdownTick_last { w with countdown := ((S + 1 : ℕ) : ℤ) - (S : ℕ) }
    (by exact h1)
    (by show ((S + 1 : ℕ) : ℤ) - (S : ℕ) ≤ 1; push_cast; omega)
  rw [hstep]
  have he : ((S + 1 : ℕ) : ℤ) - (S : ℕ) - 1 = 0 := by push_cast; ring
  simp only [he]

/-- C7: a match start resets the countdown to the fixed start value 5;
each interval second decrements it by exactly 1 with no skipped or
repeated value; it reaches exactly 0, and only on the tick that reaches 0
does the phase become Active; afterwards the interval is cleared and
further ticks change nothing. -/
theorem countdown_reaches_zero (level : LevelConfig) (rands : ℕ → Rand3)
    (w : World) (h : w.isPlaying = false) :
    (startCountdown level rands w).countdown = 5 ∧
    (∀ k : ℕ, k ≤ 5 →
      (countdownTick^[k] (startCountdown level rands w)).countdown = 5 - (k : ℤ)) ∧
    (∀ k : ℕ, k < 5 →
      (countdownTick^[k] (startCountdown level rands w)).isPlaying = false) ∧
    (countdownTick^[5] (startCountdown level rands w)).isPlaying = true ∧
    (countdownTick^[5] (startCountdown level rands w)).countdown = 0 ∧
    (∀ m : ℕ, 5 ≤ m →
      countdownTick^[m] (startCountdown level rands w)
        = countdownTick^[5] (startCountdown level rands w)) := by
  set s := startCountdown level rands w with hs
  have h1 : s.countdownIntervalActive = true := rfl
  have h2 : s.countdown = ((5 : ℕ) : ℤ) := rfl
  have hend := countdownTick_at_end s 5 h1 h2 (by norm_num)
  have hfix : ∀ j : ℕ, countdownTick^[5 + j] s = countdownTick^[5] s := by
    intro j
    induction j with
    | zero => rfl
    | succ j ih =>
      have hj : 5 + (j + 1) = (5 + j) + 1 := by omega
      rw [hj, Function.iterate_succ_apply', ih, hend, countdownTick_cleared _ rfl]
  refine ⟨rfl, ?_, ?_, ?_, ?_, ?_⟩
  · intro k hk
    rcases lt_or_eq_of_le hk with hlt | heq
    · rw [countdownTick_iterate s 5 h1 h2 k hlt]
      rfl
    · rw [heq, hend]
      show (0 : ℤ) = 5 - ((5 : ℕ) : ℤ)
      omega
  · intro k hk
    rw [countdownTick_iterate s 5 h1 h2 k hk]
    show s.isPlaying = false
    exact h
  · rw [hend]
  · rw [hend]
  · intro m hm
    have hm2 : m = 5 + (m - 5) := by omega
    rw [hm2, hfix]

/-- C7 witness: the countdown run instantiated at the beginner level, a
constant random oracle and the startup world. -/
theorem countdown_reaches_zero_inst :
    world0.isPlaying = false ∧
    (startCountdown beginner (fun _ => ⟨1/2, 1/2, 1/2⟩) world0).countdown = 5 ∧
    (countdownTick^[5]
      (startCountdown beginner (fun _ => ⟨1/2, 1/2, 1/2⟩) world0)).isPlaying = true ∧
    (countdownTick^[5]
      (startCountdown beginner (fun _ => ⟨1/2, 1/2, 1/2⟩) world0)).countdown = 0 :=
  have h := countdown_reaches_zero beginner (fun _ => ⟨1/2, 1/2, 1/2⟩) world0 rfl
  ⟨rfl, h.1, h.2.2.2.1, h.2.2.2.2.1⟩

/-- An in-place mutation of `targets[i]` leaves every other entry alone. -/
theorem setAt_get_ne (l : List TargetState) (i j : ℕ) (f : TargetState → TargetState)
    (h : i ≠ j) : (setAt l i f)[j]? = l[j]? := by
  unfold setAt
  cases hl : l[i]? with
  | none => rfl
  | some t => exact List.getElem?_set_ne h

/-- An in-place mutation of `targets[i]` applies `f` to entry `i`. -/
theorem setAt_get_self (l : List TargetState) (i : ℕ) (f : TargetState → TargetState)
    (t : TargetState) (h : l[i]? = some t) : (setAt l i f)[i]? = some (f t) := by
  unfold setAt
  rw [h]
  have hlen : i < l.length := (List.getElem?_eq_some.mp h).1
  simp [List.getElem?_set_self hlen]

/-- An in-place mutation keeps the array length. -/
theorem setAt_length (l : List TargetState) (i : ℕ) (f : TargetState → TargetState) :
    (setAt l i f).length = l.length := by
  unfold setAt
  cases hl : l[i]? with
  | none => rfl
  | some t => simp

/-- The shooting listener's early returns: not playing, pointer not
locked, or an empty intersection list all leave the state untouched. -/
theorem shoot_ignored_cases (w : World) (hits : List ℕ) :
    (w.isPlaying = false → shoot hits w = w) ∧
    (w.controlsLocked = false → shoot hits w = w) ∧
    shoot [] w = w := by
  refine ⟨?_, ?_, ?_⟩
  · intro h
    simp [shoot, h]
  · intro h
    simp [shoot, h]
  · unfold shoot
    split <;> rfl

/-- C5: a fire event while not playing, or while the pointer is not
locked, or whose hit-test ray intersects no target, leaves the whole game
state unchanged — same score, no respawn scheduled. -/
theorem fire_ignored_preconditions (w : World) (hits : List ℕ) :
    (w.isPlaying = false → shoot hits w = w) ∧
    (w.controlsLocked = false → shoot hits w = w) ∧
    shoot [] w = w :=
  shoot_ignored_cases w hits

/-- The result of a hit on the shooting listener, unfolded. -/
theorem shoot_hit_eq (w : World) (i : ℕ) (rest : List ℕ)
    (hp : w.isPlaying = true) (hl : w.controlsLocked = true) :
    shoot (i :: rest) w
      = { w with targets := setAt w.targets i (fun t => { t with color := 0xffffff }),
                 score := w.score + 1,
                 respawnSchedule := w.respawnSchedule ++ [(i, 200)] } := by
  rw [shoot, if_neg (by simp [hp, hl])]

/-- C4 (amended): a fire event while playing with the pointer locked whose
ray hits at least one target increments the score by exactly 1, touches no
target other than the nearest hit `i`, and registers a 200 ms respawn of
that specific target; when that scheduled respawn runs, the target's
position is a fresh sample inside the spawn volume — which need not differ
from the pre-hit position. -/
theorem hit_scores_and_schedules_respawn (w : World) (i : ℕ) (rest : List ℕ)
    (r : Rand3) (hp : w.isPlaying = true) (hl : w.controlsLocked = true)
    (hr : validRand r) (hx : 0 < w.currentLevel.spawnRange.x)
    (hy : 0 < w.currentLevel.spawnRange.y) (hz : 0 < w.currentLevel.spawnRange.z)
    (hi : i < w.targets.length) :
    (shoot (i :: rest) w).score = w.score + 1 ∧
    (shoot (i :: rest) w).respawnSchedule = w.respawnSchedule ++ [(i, 200)] ∧
    (∀ j : ℕ, i ≠ j → (shoot (i :: rest) w).targets[j]? = w.targets[j]?) ∧
    ((respawnScheduled i r (shoot (i :: rest) w)).targets[i]?).map TargetState.position
      = some (spawnPoint w.currentLevel r) ∧
    inSpawnBox w.currentLevel (spawnPoint w.currentLevel r) := by
  have hshoot := shoot_hit_eq w i rest hp hl
  obtain ⟨t, ht⟩ : ∃ t, w.targets[i]? = some t := ⟨w.targets[i], List.getElem?_eq_getElem hi⟩
  refine ⟨by rw [hshoot], by rw [hshoot], ?_, ?_, spawnPoint_in_box _ r hr hx hy hz⟩
  · intro j hj
    rw [hshoot]
    exact setAt_get_ne w.targets i j _ hj
  · have h1 : (setAt w.targets i fun s => { s with color := 0xffffff })[i]?
        = some { t with color := 0xffffff } := setAt_get_self _ i _ t ht
    simp only [hshoot, respawnScheduled]
    rw [setAt_get_self _ i _ _ h1]
    rfl

/-- A pre-hit target sitting exactly at the spawn sample the draws
`(1/2, 0, 0)` produce: position `(0, 1, -5)`. -/
def cex4Target : TargetState :=
  { position := ⟨0, 1, -5⟩, rotX := 0, rotY := 0,
    color := 0x00ff00, speed := 0.05, levelConfig := beginner }

/-- A mid-match world whose only target is `cex4Target`. -/
def cex4World : World :=
  { world0 with isPlaying := true, controlsLocked := true, targets := [cex4Target] }

/-- C4 witness: the amended hit resolution instantiated on `cex4World`,
the hit list `[0]` and the draws `(1/2, 1/2, 1/2)`. -/
theorem hit_scores_and_schedules_respawn_inst :
    (shoot [0] cex4World).score = cex4World.score + 1 ∧
    (shoot [0] cex4World).respawnSchedule = cex4World.respawnSchedule ++ [(0, 200)] ∧
    ((respawnScheduled 0 ⟨1/2, 1/2, 1/2⟩ (shoot [0] cex4World)).targets[0]?).map
        TargetState.position
      = some (spawnPoint cex4World.currentLevel ⟨1/2, 1/2, 1/2⟩) :=
  have h := hit_scores_and_schedules_respawn cex4World 0 [] ⟨1/2, 1/2, 1/2⟩ rfl rfl
    (by norm_num [validRand]) (by norm_num [cex4World, world0, beginner])
    (by norm_num [cex4World, world0, beginner]) (by norm_num [cex4World, world0, beginner])
    (by norm_num [cex4World, world0, cex4Target])
  ⟨h.1, h.2.1, h.2.2.2.1⟩

/-- C4 counterexample: on `cex4World`, the fire event hits the target at
position `(0, 1, -5)` and schedules its respawn; when the scheduled
respawn runs with the (valid) draws `(1/2, 0, 0)`, the fresh sample is
again `(0, 1, -5)` — the post-respawn position does not differ from the
pre-hit position, refuting that part of the claim. -/
theorem hit_respawn_can_repeat_position :
    validRand ⟨1/2, 0, 0⟩ ∧
    cex4Target.position = ⟨0, 1, -5⟩ ∧
    (shoot [0] cex4World).score = cex4World.score + 1 ∧
    ((respawnScheduled 0 ⟨1/2, 0, 0⟩ (shoot [0] cex4World)).targets[0]?).map
        TargetState.position
      = some cex4Target.position := by
  have hshoot := shoot_hit_eq cex4World 0 [] rfl rfl
  refine ⟨by norm_num [validRand], rfl, by rw [hshoot], ?_⟩
  have ht : cex4World.targets[0]? = some cex4Target := rfl
  have h1 : (setAt cex4World.targets 0 fun s => { s with color := 0xffffff })[0]?
      = some { cex4Target with color := 0xffffff } := setAt_get_self _ 0 _ cex4Target ht
  simp only [hshoot, respawnScheduled]
  rw [setAt_get_self _ 0 _ _ h1]
  show some (spawnPoint cex4World.currentLevel ⟨1/2, 0, 0⟩) = some cex4Target.position
  norm_num [spawnPoint, cex4World, world0, beginner, cex4Target, Vec3.mk.injEq]

/-- The net effect of one `forEach` iteration on its own target: the
update, plus the red coloring when the updated target collides. -/
noncomputable def frameTargetResult (cam : Vec3) (cfg : LevelConfig) (r : Rand3)
    (t : TargetState) : TargetState :=
  if Target.checkCollision cam (Target.update cam cfg r t) then
    { Target.update cam cfg r t with color := 0xff0000 }
  else Target.update cam cfg r t

/-- A `forEach` iteration over a missing index does nothing. -/
theorem frameTarget_none (rands : ℕ → Rand3) (i : ℕ) (w : World)
    (h : w.targets[i]? = none) : frameTarget rands i w = w := by
  unfold frameTarget
  simp only [h]

/-- A `forEach` iteration whose updated target collides runs
`handleCollision` on the updated array. -/
theorem frameTarget_collide_eq (rands : ℕ → Rand3) (i : ℕ) (w : World)
    (t : TargetState) (ht : w.targets[i]? = some t)
    (hc : Target.checkCollision w.cameraPos
      (Target.update w.cameraPos w.currentLevel (rands i) t) = true) :
    frameTarget rands i w
      = handleCollision i
          { w with targets :=
              w.targets.set i (Target.update w.cameraPos w.currentLevel (rands i) t) } := by
  unfold frameTarget
  simp only [ht, hc, if_true]

/-- A `forEach` iteration whose updated target does not collide only
writes the updated target back. -/
theorem frameTarget_no_collide_eq (rands : ℕ → Rand3) (i : ℕ) (w : World)
    (t : TargetState) (ht : w.targets[i]? = some t)
    (hc : Target.checkCollision w.cameraPos
      (Target.update w.cameraPos w.currentLevel (rands i) t) = false) :
    frameTarget rands i w
      = { w with targets :=
            w.targets.set i (Target.update w.cameraPos w.currentLevel (rands i) t) } := by
  unfold frameTarget
  simp only [ht, hc, Bool.false_eq_true, if_false]

/-- A `forEach` iteration never touches the camera, the level, the score or
the clock. -/
theorem frameTarget_const (rands : ℕ → Rand3) (i : ℕ) (w : World) :
    (frameTarget rands i w).cameraPos = w.cameraPos ∧
    (frameTarget rands i w).currentLevel = w.currentLevel ∧
    (frameTarget rands i w).score = w.score ∧
    (frameTarget rands i w).timeLeft = w.timeLeft := by
  cases hl : w.targets[i]? with
  | none =>
    rw [frameTarget_none rands i w hl]
    exact ⟨rfl, rfl, rfl, rfl⟩
  | some t =>
    cases hc : Target.checkCollision w.cameraPos
        (Target.update w.cameraPos w.currentLevel (rands i) t) with
    | false =>
      rw [frameTarget_no_collide_eq rands i w t hl hc]
      exact ⟨rfl, rfl, rfl, rfl⟩
    | true =>
      rw [frameTarget_collide_eq rands i w t hl hc]
      exact ⟨rfl, rfl, rfl, rfl⟩

/-- A `forEach` iteration never restarts a stopped match. -/
theorem frameTarget_stopped (rands : ℕ → Rand3) (i : ℕ) (w : World)
    (h : w.isPlaying = false) : (frameTarget rands i w).isPlaying = false := by
  cases hl : w.targets[i]? with
  | none =>
    rw [frameTarget_none rands i w hl]
    exact h
  | some t =>
    cases hc : Target.checkCollision w.cameraPos
        (Target.update w.cameraPos w.currentLevel (rands i) t) with
    | false =>
      rw [frameTarget_no_collide_eq rands i w t hl hc]
      exact h
    | true =>
      rw [frameTarget_collide_eq rands i w t hl hc]
      rfl

/-- A `forEach` iteration only ever appends to the scheduled alerts. -/
theorem frameTarget_alerts_mono (rands : ℕ → Rand3) (i : ℕ) (w : World)
    (a : Summary) (h : a ∈ w.alerts) : a ∈ (frameTarget rands i w).alerts := by
  cases hl : w.targets[i]? with
  | none =>
    rw [frameTarget_none rands i w hl]
    exact h
  | some t =>
    cases hc : Target.checkCollision w.cameraPos
        (Target.update w.cameraPos w.currentLevel (rands i) t) with
    | false =>
      rw [frameTarget_no_collide_eq rands i w t hl hc]
      exact h
    | true =>
      rw [frameTarget_collide_eq rands i w t hl hc]
      exact List.mem_append_left _ h

/-- A `forEach` iteration leaves every other target entry alone. -/
theorem frameTarget_get_ne (rands : ℕ → Rand3) (i j : ℕ) (w : World) (h : i ≠ j) :
    (frameTarget rands i w).targets[j]? = w.targets[j]? := by
  cases hl : w.targets[i]? with
  | none =>
    rw [frameTarget_none rands i w hl]
  | some t =>
    cases hc : Target.checkCollision w.cameraPos
        (Target.update w.cameraPos w.currentLevel (rands i) t) with
    | false =>
      rw [frameTarget_no_collide_eq rands i w t hl hc]
      exact List.getElem?_set_ne h
    | true =>
      rw [frameTarget_collide_eq rands i w t hl hc]
      show (setAt (w.targets.set i _) i _)[j]? = _
      rw [setAt_get_ne _ i j _ h]
      exact List.getElem?_set_ne h

/-- A `forEach` iteration advances its own target to `frameTargetResult`. -/
theorem frameTarget_get_self (rands : ℕ → Rand3) (i : ℕ) (w : World)
    (t : TargetState) (ht : w.targets[i]? = some t) :
    (frameTarget rands i w).targets[i]?
      = some (frameTargetResult w.cameraPos w.currentLevel (rands i) t) := by
  have hlen : i < w.targets.length := (List.getElem?_eq_some.mp ht).1
  have hset : (w.targets.set i
      (Target.update w.cameraPos w.currentLevel (rands i) t))[i]?
      = some (Target.update w.cameraPos w.currentLevel (rands i) t) := by
    simp [List.getElem?_set_self hlen]
  cases hc : Target.checkCollision w.cameraPos
      (Target.update w.cameraPos w.currentLevel (rands i) t) with
  | false =>
    rw [frameTarget_no_collide_eq rands i w t ht hc]
    rw [frameTargetResult, if_neg (by simp [hc])]
    exact hset
  | true =>
    rw [frameTarget_collide_eq rands i w t ht hc]
    rw [frameTargetResult, if_pos hc]
    show (setAt (w.targets.set i _) i _)[i]? = _
    rw [setAt_get_self _ i _ _ hset]

/-- The `forEach` iteration of a target that collides after its update
schedules one game-over alert carrying the current score and level name,
and stops play. -/
theorem frameTarget_alerts_collide (rands : ℕ → Rand3) (i : ℕ) (w : World)
    (t : TargetState) (ht : w.targets[i]? = some t)
    (hc : Target.checkCollision w.cameraPos
      (Target.update w.cameraPos w.currentLevel (rands i) t) = true) :
    (frameTarget rands i w).alerts = w.alerts ++ [⟨w.score, w.currentLevel.name⟩] ∧
    (frameTarget rands i w).isPlaying = false := by
  rw [frameTarget_collide_eq rands i w t ht hc]
  exact ⟨rfl, rfl⟩

/-- The `forEach` loop processes a concatenated index list in two stages. -/
theorem frameLoop_append (rands : ℕ → Rand3) (l1 l2 : List ℕ) (w : World) :
    frameLoop rands (l1 ++ l2) w = frameLoop rands l2 (frameLoop rands l1 w) := by
  unfold frameLoop
  rw [List.foldl_append]

/-- The `forEach` loop never touches the camera, the level, the score or
the clock. -/
theorem frameLoop_const (rands : ℕ → Rand3) (l : List ℕ) (w : World) :
    (frameLoop rands l w).cameraPos = w.cameraPos ∧
    (frameLoop rands l w).currentLevel = w.currentLevel ∧
    (frameLoop rands l w).score = w.score ∧
    (frameLoop rands l w).timeLeft = w.timeLeft := by
  induction l generalizing w with
  | nil => exact ⟨rfl, rfl, rfl, rfl⟩
  | cons i l ih =>
    have hstep := frameTarget_const rands i w
    have hrest := ih (frameTarget rands i w)
    exact ⟨hrest.1.trans hstep.1, hrest.2.1.trans hstep.2.1,
      hrest.2.2.1.trans hstep.2.2.1, hrest.2.2.2.trans hstep.2.2.2⟩

/-- The `forEach` loop never restarts a stopped match. -/
theorem frameLoop_stopped (rands : ℕ → Rand3) (l : List ℕ) (w : World)
    (h : w.isPlaying = false) : (frameLoop rands l w).isPlaying = false := by
  induction l generalizing w with
  | nil => exact h
  | cons i l ih => exact ih (frameTarget rands i w) (frameTarget_stopped rands i w h)

/-- The `forEach` loop only ever appends to the scheduled alerts. -/
theorem frameLoop_alerts_mono (rands : ℕ → Rand3) (l : List ℕ) (w : World)
    (a : Summary) (h : a ∈ w.alerts) : a ∈ (frameLoop rands l w).alerts := by
  induction l generalizing w with
  | nil => exact h
  | cons i l ih =>
    exact ih (frameTarget rands i w) (frameTarget_alerts_mono rands i w a h)

/-- The `forEach` loop leaves target entries whose index it does not visit
alone. -/
theorem frameLoop_get_notmem (rands : ℕ → Rand3) (l : List ℕ) (w : World)
    (j : ℕ) (h : j ∉ l) : (frameLoop rands l w).targets[j]? = w.targets[j]? := by
  induction l generalizing w with
  | nil => rfl
  | cons i l ih =>
    have hij : i ≠ j := fun he => h (he ▸ List.mem_cons_self i l)
    have hjl : j ∉ l := fun hm => h (List.mem_cons_of_mem i hm)
    exact (ih (frameTarget rands i w) hjl).trans (frameTarget_get_ne rands i j w hij)

/-- Running the `forEach` loop over all indices `< n` advances every
target entry below `n` to its `frameTargetResult`, whatever happens to the
other targets — a collision on one target does not stop the iteration. -/
theorem frameLoop_range_get (rands : ℕ → Rand3) (w : World) (n : ℕ) :
    ∀ j : ℕ, j < n → ∀ t : TargetState, w.targets[j]? = some t →
      (frameLoop rands (List.range n) w).targets[j]?
        = some (frameTargetResult w.cameraPos w.currentLevel (rands j) t) := by
  induction n with
  | zero => omega
  | succ n ih =>
    intro j hj t ht
    rw [List.range_succ, frameLoop_append]
    rcases Nat.lt_or_ge j n with hlt | hge
    · rw [show frameLoop rands [n] (frameLoop rands (List.range n) w)
          = frameTarget rands n (frameLoop rands (List.range n) w) from rfl]
      rw [frameTarget_get_ne rands n j _ (by omega)]
      exact ih j hlt t ht
    · have hj : j = n := by omega
      subst hj
      have hX := frameLoop_const rands (List.range j) w
      have hXt : (frameLoop rands (List.range j) w).targets[j]? = some t := by
        rw [frameLoop_get_notmem rands (List.range j) w j (by simp)]
        exact ht
      rw [show frameLoop rands [j] (frameLoop rands (List.range j) w)
          = frameTarget rands j (frameLoop rands (List.range j) w) from rfl]
      rw [frameTarget_get_self rands j _ t hXt, hX.1, hX.2.1]

/-- If some target below `n` collides after its update, running the
`forEach` loop over all indices `< n` ends play and schedules a game-over
alert with the current score and level name. -/
theorem frameLoop_range_collision (rands : ℕ → Rand3) (w : World) (n : ℕ) :
    ∀ i : ℕ, i < n → ∀ t : TargetState, w.targets[i]? = some t →
      Target.checkCollision w.cameraPos
        (Target.update w.cameraPos w.currentLevel (rands i) t) = true →
      (frameLoop rands (List.range n) w).isPlaying = false ∧
      Summary.mk w.score w.currentLevel.name
        ∈ (frameLoop rands (List.range n) w).alerts := by
  induction n with
  | zero => omega
  | succ n ih =>
    intro i hi t ht hc
    rw [List.range_succ, frameLoop_append,
      show frameLoop rands [n] (frameLoop rands (List.range n) w)
        = frameTarget rands n (frameLoop rands (List.range n) w) from rfl]
    rcases Nat.lt_or_ge i n with hlt | hge
    · have hprev := ih i hlt t ht hc
      exact ⟨frameTarget_stopped rands n _ hprev.1,
        frameTarget_alerts_mono rands n _ _ hprev.2⟩
    · have hi : i = n := by omega
      subst hi
      have hX := frameLoop_const rands (List.range i) w
      have hXt : (frameLoop rands (List.range i) w).targets[i]? = some t := by
        rw [frameLoop_get_notmem rands (List.range i) w i (by simp)]
        exact ht
      have hXc : Target.checkCollision (frameLoop rands (List.range i) w).cameraPos
          (Target.update (frameLoop rands (List.range i) w).cameraPos
            (frameLoop rands (List.range i) w).currentLevel (rands i) t) = true := by
        rw [hX.1, hX.2.1]
        exact hc
      have hcol := frameTarget_alerts_collide rands i _ t hXt hXc
      refine ⟨hcol.2, ?_⟩
      rw [hcol.1, hX.2.2.1, hX.2.1]
      exact List.mem_append_right _ (List.mem_singleton.mpr rfl)

/-- C6: on any simulation frame during which some target's updated position
collides with the player, play stops (Active → Ended), the collision
handling leaves the score unchanged, and a game-over summary carrying the
final score and the level name is scheduled. -/
theorem collision_ends_match (rands : ℕ → Rand3) (w : World)
    (hp : w.isPlaying = true) (i : ℕ) (t : TargetState)
    (ht : w.targets[i]? = some t)
    (hc : Target.checkCollision w.cameraPos
      (Target.update w.cameraPos w.currentLevel (rands i) t) = true) :
    (runFrame rands w).isPlaying = false ∧
    (runFrame rands w).score = w.score ∧
    Summary.mk w.score w.currentLevel.name ∈ (runFrame rands w).alerts := by
  have hrun : runFrame rands w = frameLoop rands (List.range w.targets.length) w := by
    rw [runFrame, if_neg (by simp [hp])]
  have hi : i < w.targets.length := (List.getElem?_eq_some.mp ht).1
  have hcol := frameLoop_range_collision rands w w.targets.length i hi t ht hc
  rw [hrun]
  exact ⟨hcol.1, (frameLoop_const rands _ w).2.2.1, hcol.2⟩

/-- A constant random oracle. -/
noncomputable def demoRands : ℕ → Rand3 := fun _ => ⟨1/2, 1/2, 1/2⟩

/-- A target 2.5 units in front of a camera at the origin, moving at speed
0.5: after one update it sits at distance 2, inside the collision threshold
3 but outside the respawn distance 1. -/
noncomputable def collideTarget : TargetState :=
  { position := ⟨0, 0, -5/2⟩, rotX := 0, rotY := 0,
    color := 0x00ff00, speed := 1/2, levelConfig := beginner }

/-- `collideTarget` after one `Target.update` toward the origin. -/
noncomputable def movedTarget : TargetState :=
  { position := ⟨0, 0, -2⟩, rotX := 0.01, rotY := 0.01,
    color := 0x00ff00, speed := 1/2, levelConfig := beginner }

/-- A mid-match world with two copies of `collideTarget`. -/
noncomputable def collideWorld : World :=
  { world0 with isPlaying := true, controlsLocked := true,
                targets := [collideTarget, collideTarget] }

/-- Concrete evaluation: one update moves `collideTarget` to `movedTarget`
and does not trigger a respawn. -/
theorem collide_update_eval :
    Target.update ⟨0, 0, 0⟩ beginner ⟨1/2, 1/2, 1/2⟩ collideTarget = movedTarget := by
  have h1 : Vec3.sub ⟨0, 0, 0⟩ collideTarget.position = ⟨0, 0, 5/2⟩ := by
    show Vec3.sub ⟨0, 0, 0⟩ ⟨0, 0, -5/2⟩ = _
    unfold Vec3.sub
    norm_num
  have hmp : Target.movedPosition ⟨0, 0, 0⟩ collideTarget = ⟨0, 0, -2⟩ := by
    unfold Target.movedPosition Vec3.normalize
    rw [h1, len_zaxis, abs_of_pos (by norm_num : (0:ℝ) < 5/2)]
    show Vec3.add ⟨0, 0, -5/2⟩ (Vec3.smul (1/2) (Vec3.smul (1 / (5/2)) ⟨0, 0, 5/2⟩)) = _
    unfold Vec3.add Vec3.smul
    norm_num
  have hcond : ¬(Vec3.distanceTo ⟨0, 0, -2⟩ ⟨0, 0, 0⟩ < 1 ∨
      (⟨0, 0, -2⟩ : Vec3).z > 0) := by
    push_neg
    constructor
    · rw [distanceTo_zaxis]
      norm_num
    · show (-2 : ℝ) ≤ 0
      norm_num
  rw [Target.update_eq, hmp, if_neg hcond]
  norm_num [collideTarget, movedTarget, TargetState.mk.injEq, Vec3.mk.injEq]

/-- Concrete evaluation: `movedTarget` collides — distance 2 is below the
beginner collision threshold 3. -/
theorem collide_check_eval : Target.checkCollision ⟨0, 0, 0⟩ movedTarget = true := by
  unfold Target.checkCollision
  rw [decide_eq_true_eq]
  show Vec3.distanceTo ⟨0, 0, -2⟩ ⟨0, 0, 0⟩ < beginner.collisionDistance
  rw [distanceTo_zaxis]
  norm_num [beginner]

/-- In `collideWorld`, any per-frame update of a `collideTarget` entry
reports a collision. -/
theorem collideWorld_collides (i : ℕ) :
    Target.checkCollision collideWorld.cameraPos
      (Target.update collideWorld.cameraPos collideWorld.currentLevel
        (demoRands i) collideTarget) = true := by
  show Target.checkCollision ⟨0, 0, 0⟩
    (Target.update ⟨0, 0, 0⟩ beginner ⟨1/2, 1/2, 1/2⟩ collideTarget) = true
  rw [collide_update_eval]
  exact collide_check_eval

/-- C6 witness: the collision termination instantiated on `collideWorld` —
the frame stops play, keeps the score, and schedules a summary with the
final score and level name. -/
theorem collision_ends_match_inst :
    collideWorld.isPlaying = true ∧
    (runFrame demoRands collideWorld).isPlaying = false ∧
    (runFrame demoRands collideWorld).score = collideWorld.score ∧
    Summary.mk collideWorld.score collideWorld.currentLevel.name
      ∈ (runFrame demoRands collideWorld).alerts :=
  have h := collision_ends_match demoRands collideWorld rfl 0 collideTarget rfl
    (collideWorld_collides 0)
  ⟨rfl, h.1, h.2.1, h.2.2⟩

/-- C10: a collision does not stop the `forEach` iteration.  First, in any
playing frame every target entry is still advanced to its per-target
result, whatever happened to the targets before it.  Second, on the
concrete two-target state `collideWorld`, where both targets end the frame
within collision range, the end-of-game collision handling runs twice —
the frame appends two game-over alerts — and the second target was still
advanced (to position `(0, 0, -2)`) after the first one had already ended
the game: the `return` exits only one per-target callback, not the loop. -/
theorem collision_does_not_stop_loop :
    (∀ (rands : ℕ → Rand3) (w : World), w.isPlaying = true →
      ∀ (j : ℕ) (t : TargetState), w.targets[j]? = some t →
        (runFrame rands w).targets[j]?
          = some (frameTargetResult w.cameraPos w.currentLevel (rands j) t)) ∧
    (runFrame demoRands collideWorld).alerts.length
      = collideWorld.alerts.length + 2 ∧
    ((runFrame demoRands collideWorld).targets[1]?).map TargetState.position
      = some ⟨0, 0, -2⟩ := by
  have hgen : ∀ (rands : ℕ → Rand3) (w : World), w.isPlaying = true →
      ∀ (j : ℕ) (t : TargetState), w.targets[j]? = some t →
        (runFrame rands w).targets[j]?
          = some (frameTargetResult w.cameraPos w.currentLevel (rands j) t) := by
    intro rands w hp j t ht
    have hrun : runFrame rands w = frameLoop rands (List.range w.targets.length) w := by
      rw [runFrame, if_neg (by simp [hp])]
    have hj : j < w.targets.length := (List.getElem?_eq_some.mp ht).1
    rw [hrun]
    exact frameLoop_range_get rands w w.targets.length j hj t ht
  refine ⟨hgen, ?_, ?_⟩
  · have hrun : runFrame demoRands collideWorld
        = frameTarget demoRands 1 (frameTarget demoRands 0 collideWorld) := by
      rw [runFrame, if_neg (by rw [show collideWorld.isPlaying = true from rfl]; simp)]
      rfl
    have halert0 := frameTarget_alerts_collide demoRands 0 collideWorld collideTarget
      rfl (collideWorld_collides 0)
    have hconst0 := frameTarget_const demoRands 0 collideWorld
    have ht1 : (frameTarget demoRands 0 collideWorld).targets[1]? = some collideTarget :=
      (frameTarget_get_ne demoRands 0 1 collideWorld (by omega)).trans rfl
    have hc1 : Target.checkCollision (frameTarget demoRands 0 collideWorld).cameraPos
        (Target.update (frameTarget demoRands 0 collideWorld).cameraPos
          (frameTarget demoRands 0 collideWorld).currentLevel (demoRands 1)
          collideTarget) = true := by
      rw [hconst0.1, hconst0.2.1]
      exact collideWorld_collides 1
    have halert1 := frameTarget_alerts_collide demoRands 1
      (frameTarget demoRands 0 collideWorld) collideTarget ht1 hc1
    rw [hrun, halert1.1, halert0.1]
    simp
  · have h1 := hgen demoRands collideWorld rfl 1 collideTarget rfl
    rw [h1]
    have hres : frameTargetResult collideWorld.cameraPos collideWorld.currentLevel
        (demoRands 1) collideTarget = { movedTarget with color := 0xff0000 } := by
      show frameTargetResult ⟨0, 0, 0⟩ beginner ⟨1/2, 1/2, 1/2⟩ collideTarget = _
      rw [frameTargetResult, collide_update_eval, if_pos collide_check_eval]
    rw [hres]
    rfl

/-- C8 (code bug): no code path ever cancels the match-timer interval —
`clearInterval(timerInterval)` appears nowhere in main.js.  The timer
callback, `endGame`, `handleCollision` and the pointer-unlock abandonment
all leave the registration in place, and the abandonment path does not
cancel a running countdown interval either; concretely, after a full match
ends the timer interval registered at startup is still active. -/
theorem timer_interval_never_cancelled :
    (∀ w : World, (updateTimer w).timerIntervalActive = w.timerIntervalActive) ∧
    (∀ w : World, (endGame w).timerIntervalActive = w.timerIntervalActive) ∧
    (∀ (i : ℕ) (w : World),
      (handleCollision i w).timerIntervalActive = w.timerIntervalActive) ∧
    (∀ w : World, (pointerUnlock w).timerIntervalActive = w.timerIntervalActive) ∧
    (∀ w : World,
      (pointerUnlock w).countdownIntervalActive = w.countdownIntervalActive) ∧
    (updateTimer^[2] activeWorld).isPlaying = false ∧
    (updateTimer^[2] activeWorld).timerIntervalActive = true := by
  have htimer : ∀ w : World,
      (updateTimer w).timerIntervalActive = w.timerIntervalActive := by
    intro w
    cases hp : w.isPlaying with
    | false => rw [updateTimer_not_playing w hp]
    | true =>
      rcases le_or_lt w.timeLeft 1 with hle | hlt
      · rw [updateTimer_last w hp hle]
        rfl
      · rw [updateTimer_dec w hp hlt]
  have hunlock : ∀ w : World,
      (pointerUnlock w).timerIntervalActive = w.timerIntervalActive ∧
      (pointerUnlock w).countdownIntervalActive = w.countdownIntervalActive := by
    intro w
    unfold pointerUnlock
    cases hp : w.isPlaying with
    | false => simp
    | true => simp
  have hend := updateTimer_at_end activeWorld 2 rfl rfl (by norm_num)
  refine ⟨htimer, fun w => rfl, fun i w => rfl,
    fun w => (hunlock w).1, fun w => (hunlock w).2, ?_, ?_⟩
  · rw [hend]
    rfl
  · rw [hend]
    rfl

/-- The discrete events that can occur during a match, as the source wires
them up: the two interval callbacks, a fire input with its hit-test
result, an `animate` frame with its `Math.random` oracle, a pointer
unlock, and an executing scheduled respawn.  The difficulty-selection
transition (`startCountdown`) is the phase-entry transition and is treated
separately. -/
inductive GEvent where
  | timerTick : GEvent
  | cdTick : GEvent
  | fire (hits : List ℕ) : GEvent
  | frame (rands : ℕ → Rand3) : GEvent
  | unlockPointer : GEvent
  | delayedRespawn (i : ℕ) (r : Rand3) : GEvent

/-- Dispatch of one event to its handler. -/
noncomputable def step : GEvent → World → World
  | .timerTick, w => updateTimer w
  | .cdTick, w => countdownTick w
  | .fire hits, w => shoot hits w
  | .frame rands, w => runFrame rands w
  | .unlockPointer, w => pointerUnlock w
  | .delayedRespawn i r, w => respawnScheduled i r w

/-- The countdown callback touches neither score nor clock. -/
theorem countdownTick_score_time (w : World) :
    (countdownTick w).score = w.score ∧ (countdownTick w).timeLeft = w.timeLeft := by
  cases hp : w.countdownIntervalActive with
  | false =>
    rw [countdownTick_cleared w hp]
    exact ⟨rfl, rfl⟩
  | true =>
    rcases le_or_lt w.countdown 1 with hle | hlt
    · rw [countdownTick_last w hp hle]
      exact ⟨rfl, rfl⟩
    · rw [countdownTick_dec w hp hlt]
      exact ⟨rfl, rfl⟩

/-- A frame touches neither score nor clock. -/
theorem runFrame_score_time (rands : ℕ → Rand3) (w : World) :
    (runFrame rands w).score = w.score ∧ (runFrame rands w).timeLeft = w.timeLeft := by
  unfold runFrame
  cases hp : w.isPlaying with
  | false => exact ⟨rfl, rfl⟩
  | true =>
    simp only [Bool.not_true, Bool.false_eq_true, if_false]
    have h := frameLoop_const rands (List.range w.targets.length) w
    exact ⟨h.2.2.1, h.2.2.2⟩

/-- C9 (amended): under every gameplay event — timer tick, countdown tick,
fire, frame, pointer unlock, scheduled respawn — score and clock are
frozen while the phase is not Active, and while Active the score never
decreases, moving by either 0 or exactly 1 per event.  (The documented
exception is the difficulty-selection transition `startCountdown`, which
resets both on entry to Countdown.) -/
theorem score_frozen_amended :
    ∀ (e : GEvent) (w : World),
      (w.isPlaying = false →
        (step e w).score = w.score ∧ (step e w).timeLeft = w.timeLeft) ∧
      (w.isPlaying = true →
        ((step e w).score = w.score ∨ (step e w).score = w.score + 1)) := by
  intro e w
  cases e with
  | timerTick =>
    refine ⟨fun hp => ?_, fun hp => ?_⟩
    · rw [show step GEvent.timerTick w = updateTimer w from rfl,
        updateTimer_not_playing w hp]
      exact ⟨rfl, rfl⟩
    · rw [show step GEvent.timerTick w = updateTimer w from rfl]
      left
      rcases le_or_lt w.timeLeft 1 with hle | hlt
      · rw [updateTimer_last w hp hle]
        rfl
      · rw [updateTimer_dec w hp hlt]
  | cdTick =>
    have h := countdownTick_score_time w
    exact ⟨fun _ => h, fun _ => Or.inl h.1⟩
  | fire hits =>
    refine ⟨fun hp => ?_, fun hp => ?_⟩
    · show (shoot hits w).score = w.score ∧ (shoot hits w).timeLeft = w.timeLeft
      rw [(shoot_ignored_cases w hits).1 hp]
      exact ⟨rfl, rfl⟩
    · show (shoot hits w).score = w.score ∨ (shoot hits w).score = w.score + 1
      cases hl : w.controlsLocked with
      | false =>
        rw [(shoot_ignored_cases w hits).2.1 hl]
        exact Or.inl rfl
      | true =>
        cases hits with
        | nil =>
          rw [(shoot_ignored_cases w []).2.2]
          exact Or.inl rfl
        | cons i rest =>
          rw [shoot_hit_eq w i rest hp hl]
          exact Or.inr rfl
  | frame rands =>
    have h := runFrame_score_time rands w
    exact ⟨fun _ => h, fun _ => Or.inl h.1⟩
  | unlockPointer =>
    have h : (pointerUnlock w).score = w.score ∧
        (pointerUnlock w).timeLeft = w.timeLeft := by
      unfold pointerUnlock
      cases hp : w.isPlaying with
      | false => exact ⟨rfl, rfl⟩
      | true => exact ⟨rfl, rfl⟩
    exact ⟨fun _ => h, fun _ => Or.inl h.1⟩
  | delayedRespawn i r =>
    exact ⟨fun _ => ⟨rfl, rfl⟩, fun _ => Or.inl rfl⟩

/-- A world sitting in the Ended phase with seven points on the board. -/
noncomputable def endedWorld : World := { world0 with score := 7 }

/-- C9 counterexample: the difficulty-selection transition mutates the
score outside the Active phase — with the phase not Active and score 7,
clicking a level button (`startCountdown`) resets the score to 0, so the
score is not frozen during every phase other than Active as the claim
states. -/
theorem score_reset_outside_active :
    endedWorld.isPlaying = false ∧
    endedWorld.score = 7 ∧
    (startCountdown beginner demoRands endedWorld).score = 0 :=
  ⟨rfl, rfl, rfl⟩

end GunGame
